import Mathlib

/-!
# Verification of the panda-rs syscall-injection scheduler

A shallow embedding of `src/panda-rs/src/syscall_injection.rs` and
`src/panda-rs/src/api/regs.rs`, together with theorems checking the
natural-language specification's claims against the code.

Modelling conventions:
* Machine words (`target_ulong`) are `Nat`.
* The `DashMap` globals (`INJECTORS`, `CURRENT_REGS_BACKUP`) are association
  lists (respectively functional maps) keyed by `ThreadId`; `dashmap`
  iteration order is irrelevant to every claim checked here.
* Rust futures are resumable state machines: one `poll` advances the state and
  reports `ready`, `pendingSys` (the future parked on a guest syscall, i.e.
  `WAITING_FOR_SYSCALL` was set), or `pendingOther` (pending without a syscall).
* Rust panics (`unwrap`, `expect`) are `Except.error` values carrying the
  panic message.
* Loops whose termination depends on user-supplied futures take explicit fuel;
  exhausted fuel is reported as "not finished", matching the fact that the
  source loop would simply still be running.
* The modules `syscall_future.rs`, `syscall_regs.rs`, `pinned_queue.rs` are not
  in the provided sources; the definitions that stand in for them are marked
  `Modelled from the spec:` and follow the specification text (sections 4.2,
  4.3) rather than source code.
-/

namespace PandaRs

/-- `ThreadId` from `syscall_injection.rs` lines 86-90: a pair of pid and tid,
equality by raw value comparison. -/
structure ThreadId where
  pid : Nat
  tid : Nat
deriving DecidableEq

/-- Association-list lookup, standing in for `DashMap::get`. -/
def alookup {κ α : Type} [DecidableEq κ] : List (κ × α) → κ → Option α
  | [], _ => none
  | (k, v) :: rest, k0 => if k = k0 then some v else alookup rest k0

/-- Association-list insert-or-replace, standing in for writing back to a
`DashMap` entry. -/
def ainsert {κ α : Type} [DecidableEq κ] : List (κ × α) → κ → α → List (κ × α)
  | [], k0, v0 => [(k0, v0)]
  | (k, v) :: rest, k0, v0 =>
      if k = k0 then (k0, v0) :: rest else (k, v) :: ainsert rest k0 v0

/-- `INJECTORS.entry(t).or_default().push_future(asid, fut)`
(`syscall_injection.rs` lines 166-178 and 202-211): append `v` to the queue
bound to `k`, creating the binding if absent.  Queue entries are appended,
never reordered, and a binding, once created, is never removed (the source has
no call that removes an `INJECTORS` entry). -/
def pushQ {κ α : Type} [DecidableEq κ] : List (κ × List α) → κ → α → List (κ × List α)
  | [], k0, v0 => [(k0, [v0])]
  | (k, q) :: rest, k0, v0 =>
      if k = k0 then (k, q ++ [v0]) :: rest else (k, q) :: pushQ rest k0 v0

/-- Result of one poll of a queued future, as observed by `poll_injectors`
(lines 327-341): `ready` is `Poll::Ready`, `pendingSys` is `Poll::Pending`
with `WAITING_FOR_SYSCALL` set, `pendingOther` is `Poll::Pending` without it. -/
inductive PollRes
  | ready
  | pendingSys
  | pendingOther
deriving DecidableEq

/-- An abstract injector future: `polls` counts how many times it has been
polled, `behavior` gives the outcome of each successive poll.  This stands in
for an arbitrary `Pin<Box<dyn Future<Output = ()>>>` queue entry. -/
structure AbsInj where
  polls : Nat
  behavior : Nat → PollRes

/-- One poll of an abstract injector. -/
def stepAbs (i : AbsInj) : AbsInj × PollRes :=
  ({ i with polls := i.polls + 1 }, i.behavior i.polls)

/-- The `while let Some(current) = injectors.current_mut()` loop of
`poll_injectors` (`syscall_injection.rs` lines 319-342) over one thread's
queue, generic in the future type `ι` and its poll function `step`.

Given the live asid `cur` and the queue, it returns the queue left behind,
the boolean result of `poll_injectors` restricted to this loop
(`true` = queue drained, `false` = stopped early), and the list of asids of
the entries actually polled (instrumentation used to state the
address-space-isolation claim; the source has no such list).

* head asid differs from live asid (line 324): stop, report not finished,
  poll nothing;
* `Poll::Ready` (line 330): pop the head and continue with the rest;
* `Poll::Pending` while waiting for a syscall (line 337): stop, not finished;
* `Poll::Pending` otherwise (line 340): keep polling the same head.

`fuel` bounds the number of loop iterations; the source loop can iterate
unboundedly when a future keeps returning `pendingOther`. -/
def pollQueueAux {ι : Type} (step : ι → ι × PollRes) (cur : Nat) :
    Nat → List (Nat × ι) → List (Nat × ι) × Bool × List Nat
  | 0, q => (q, false, [])
  | _ + 1, [] => ([], true, [])
  | fuel + 1, (a, i) :: rest =>
      if a = cur then
        match step i with
        | (_, .ready) =>
            let r := pollQueueAux step cur fuel rest
            (r.1, r.2.1, a :: r.2.2)
        | (i1, .pendingSys) => ((a, i1) :: rest, false, [a])
        | (i1, .pendingOther) =>
            let r := pollQueueAux step cur fuel ((a, i1) :: rest)
            (r.1, r.2.1, a :: r.2.2)
      else ((a, i) :: rest, false, [])

/-- `poll_injectors` (`syscall_injection.rs` lines 311-348) for the thread
`t`: look the thread up in `INJECTORS`; if absent, return `false`
(lines 343-345); otherwise run the queue loop and report its result.
Returns the updated map and the boolean result (`true` means "all injectors
have been processed"). -/
def pollThread {ι : Type} (step : ι → ι × PollRes) (cur fuel : Nat)
    (m : List (ThreadId × List (Nat × ι))) (t : ThreadId) :
    List (ThreadId × List (Nat × ι)) × Bool :=
  match alookup m t with
  | none => (m, false)
  | some q =>
      let r := pollQueueAux step cur fuel q
      (ainsert m t r.1, r.2.1)

/-! ## Registers and snapshots -/

/-- Guest register state: register identifier to machine word. -/
def Regs : Type := Nat → Nat

/-- Modelled from the spec: `SyscallRegs::backup` (section 4.2), from the
module `syscall_regs.rs` which is not in the provided sources.  `backup` reads
the registers relevant to resuming a caller; the snapshot is modelled as the
captured register state, of which only the backed-up subset `S` (a parameter
of `restoreRegs`) is meaningful. -/
def backupRegs (r : Regs) : Regs := r

/-- Modelled from the spec: `SyscallRegs::restore` (section 4.2): write the
snapshot's values for the backed-up register subset `S` back into the live
register state, leaving registers outside `S` untouched. -/
def restoreRegs (S : List Nat) (snap r : Regs) : Regs :=
  fun id => if id ∈ S then snap id else r id

/-- `CURRENT_REGS_BACKUP` (`syscall_injection.rs` line 261): the per-thread
register-snapshot backup map, as a functional map. -/
def BackupMap : Type := ThreadId → Option Regs

/-- `set_backed_up_regs` (`syscall_injection.rs` lines 270-272). -/
def set_backed_up_regs (t : ThreadId) (snap : Regs) (m : BackupMap) : BackupMap :=
  fun u => if u = t then some snap else m u

/-- `unset_backed_up_regs` (`syscall_injection.rs` lines 274-276). -/
def unset_backed_up_regs (t : ThreadId) (m : BackupMap) : BackupMap :=
  fun u => if u = t then none else m u

/-- `get_backed_up_regs` (`syscall_injection.rs` lines 264-268). -/
def get_backed_up_regs (t : ThreadId) (m : BackupMap) : Option Regs := m t

/-! ## Wrapped computations -/

/-- The net effect of a user-supplied injected computation on guest register
state (its host-side logic does not touch guest registers; its injected
syscalls do). -/
def Comp : Type := Regs → Regs

/-- The two wrapper shapes a queued computation can have:

* `normal`: the wrapper built by `run_injector` (`syscall_injection.rs`
  lines 169-178) — back up registers, run the body, restore, clear the backup;
* `childWrap`: the wrapper built for a fork child in the sys_return hook
  (lines 202-211) — run the body, then restore the parent's saved snapshot,
  with no backup of its own. -/
inductive Wrapped
  | normal (body : Comp)
  | childWrap (snap : Regs) (body : Comp)

/-- Execute one queued wrapper to completion, as its effect on the pair of
guest registers and the backup map.  Direct translation of the two async
blocks:

* `normal` (lines 170-177): `backup`; `set_backed_up_regs`; body;
  `restore`; `unset_backed_up_regs`;
* `childWrap` (lines 206-210): body; restore the parent snapshot — no
  `set_backed_up_regs` and no `unset_backed_up_regs`. -/
def runEntry (S : List Nat) (t : ThreadId) : Wrapped → Regs × BackupMap → Regs × BackupMap
  | .normal body, (r, m) =>
      let snap := backupRegs r
      let m1 := set_backed_up_regs t snap m
      let r1 := body r
      (restoreRegs S snap r1, unset_backed_up_regs t m1)
  | .childWrap snap body, (r, m) => (restoreRegs S snap (body r), m)

/-! ## Fork handoff and the sys_return hook -/

/-- `FORK` (`syscall_injection.rs` line 79): the duplication syscall number,
57 on x86_64 (the only architecture the source builds for; line 82 is a
compile error otherwise). -/
def FORK : Nat := 57

/-- The state read and written by `fork` and the sys_return hook.

* `lastSysNum` — `last_injected_syscall()` (from the `syscall_future` module);
* `retReg` — the value of the syscall-return-value register,
  `regs::get_reg(cpu, SYSCALL_RET)`;
* `childSlot` — `CHILD_INJECTOR` (line 112);
* `injectors` — `INJECTORS`, with each queue entry holding its asid and its
  wrapper shape;
* `curThread`, `curAsid` — `ThreadId::current()` and `current_asid()`;
* `curInjectorAsid` — `CURRENT_INJECTOR_ASID` (line 308);
* `shouldLoop` — `SHOULD_LOOP_AGAIN` (line 258);
* `pc` — the syscall pc captured by `run_injector`;
* `regsPc` — the guest program counter register;
* `deliveredRet` — the return value handed to the waiting future by
  `set_ret_value(cpu)`. -/
structure SysRetState where
  lastSysNum : Nat
  retReg : Nat
  childSlot : Option (Regs × Comp)
  injectors : List (ThreadId × List (Nat × Wrapped))
  curThread : ThreadId
  curAsid : Nat
  curInjectorAsid : Nat
  shouldLoop : Bool
  pc : Nat
  regsPc : Nat
  deliveredRet : Option Nat

/-- The `on_all_sys_return` hook body (`syscall_injection.rs` lines 187-226).

* compute `is_fork_child`: the last injected syscall number equals `FORK`
  and the return-value register reads 0 (lines 189-194);
* if so, `get_child_injector()` takes the `CHILD_INJECTOR` slot and
  `unwrap`s it — a panic (modelled as `Except.error`) when the slot is empty
  (lines 126-129) — then enqueues the child computation for the current
  thread under the current asid, wrapped as `childWrap` (lines 196-212);
* then, if `is_fork_child` or `CURRENT_INJECTOR_ASID` equals the current
  asid, set `SHOULD_LOOP_AGAIN`, deliver the return value to the waiting
  future (`set_ret_value`), and point the guest pc back at the syscall
  instruction (lines 216-225); `cpu_loop_exit_noexc` is a control transfer
  with no further state effect. -/
def sysReturnHook (s : SysRetState) : Except String SysRetState :=
  let isForkChild : Bool := s.lastSysNum == FORK && s.retReg == 0
  if isForkChild then
    match s.childSlot with
    | none => Except.error ("called Option::unwrap() on a None value")
    | some (snap, child) =>
        let s1 := { s with
          childSlot := none,
          injectors := pushQ s.injectors s.curThread (s.curAsid, .childWrap snap child) }
        Except.ok { s1 with
          shouldLoop := true,
          deliveredRet := some s.retReg,
          regsPc := s.pc }
  else
    if s.curInjectorAsid == s.curAsid then
      Except.ok { s with
        shouldLoop := true,
        deliveredRet := some s.retReg,
        regsPc := s.pc }
    else
      Except.ok s

/-- `Except.isOk` spelled out, to keep the development self-contained. -/
def exceptOk {ε α : Type} : Except ε α → Bool
  | .ok _ => true
  | .error _ => false

/-- `fork` (`syscall_injection.rs` lines 114-124): look up the current
thread's backed-up registers — `expect`, i.e. a panic, when there is none —
then `CHILD_INJECTOR.lock().replace(...)`, which stores the pair and
discards whatever the slot previously held, and finally issue the `FORK`
syscall through the suspension primitive.  Returns the new slot contents and
the issued syscall number. -/
def forkOp (backedUp : Option Regs) (slot : Option (Regs × Comp)) (child : Comp) :
    Except String (Option (Regs × Comp) × Nat) :=
  match backedUp with
  | none => Except.error ("Fork was run outside of an injector")
  | some snap =>
      let _ := slot
      Except.ok (some (snap, child), FORK)

/-! ## The suspension primitive and the hook-driven cycle -/

/-- Observable scheduler/engine events for one computation: a syscall request
being issued to the engine, and a return value being delivered back into the
computation. -/
inductive Event
  | issue (num : Nat)
  | deliver (val : Nat)
deriving DecidableEq

/-- Modelled from the spec: the runtime state of one computation that performs
a fixed sequence of `syscall` invocations (spec section 4.3; the
`syscall_future.rs` module is not in the provided sources).

* `remaining` — the syscall numbers not yet issued;
* `results` — the return values the computation has been resumed with, in
  order;
* `retSlot` — the value stored by `set_ret_value` and not yet consumed;
* `awaiting` — the computation is suspended at a `syscall().await` point;
* `trace` — the observable event history (instrumentation). -/
structure CompState where
  remaining : List Nat
  results : List Nat
  retSlot : Option Nat
  awaiting : Bool
  trace : List Event
deriving DecidableEq

/-- A computation that will perform the syscalls of `prog`, in order, not yet
started. -/
def initComp (prog : List Nat) : CompState :=
  { remaining := prog, results := [], retSlot := none, awaiting := false, trace := [] }

/-- Advance a (non-suspended) computation to its next suspension point: if
syscalls remain, record the request, set the waiting flag and suspend
(`Poll::Pending` with `WAITING_FOR_SYSCALL`); otherwise the computation is
finished (`Poll::Ready`). -/
def issueNext (s : CompState) : CompState × PollRes :=
  match s.remaining with
  | [] => (s, .ready)
  | n :: rest =>
      ({ s with remaining := rest, awaiting := true, trace := s.trace ++ [.issue n] },
       .pendingSys)

/-- Modelled from the spec: one poll of the whole injector future
(spec section 4.3).  If the computation is suspended at a syscall and a
return value has been delivered, it resumes with exactly that value —
recording it as the result of that invocation — and runs on to its next
suspension point; if suspended with no value yet, it stays pending; if not
suspended (first poll), it runs to its first suspension point. -/
def stepComp (s : CompState) : CompState × PollRes :=
  if s.awaiting then
    match s.retSlot with
    | some v =>
        issueNext { s with results := s.results ++ [v], retSlot := none, awaiting := false }
    | none => (s, .pendingSys)
  else issueNext s

/-- `set_ret_value` as seen from the suspended future: the sys_return hook
stores the engine-reported return value for the pending request, to be
consumed at the next poll. -/
def deliverRet (v : Nat) (s : CompState) : CompState :=
  { s with retSlot := some v, trace := s.trace ++ [.deliver v] }

/-- The hook-driven execution cycle for one enqueued computation on the live
thread and address space (the singleton-queue, matching-asid instance of the
`poll_injectors` loop — see `pollQueueAux_singleton_ready` and
`pollQueueAux_singleton_pendingSys`): each sys_enter event polls the
computation; when it parks on a syscall, the engine executes that request and
the sys_return hook delivers the engine-reported value for it (request `k`
receives `eng k`); when it reports ready it is popped and the cycle ends.
`fuel` bounds the number of hook rounds. -/
def cycle (eng : Nat → Nat) : Nat → CompState → CompState
  | 0, s => s
  | fuel + 1, s =>
      match stepComp s with
      | (s1, .ready) => s1
      | (s1, .pendingSys) => cycle eng fuel (deliverRet (eng s1.results.length) s1)
      | (s1, .pendingOther) => cycle eng fuel s1

/-- The return values the engine reports for `count` consecutive requests
starting at request index `k`. -/
def engVals (eng : Nat → Nat) : Nat → Nat → List Nat
  | 0, _ => []
  | count + 1, k => eng k :: engVals eng count (k + 1)

/-- The event history the claims predict for a computation issuing the
syscalls of `prog` starting at request index `k`: each request is issued,
then its value is delivered, strictly before the next request is issued. -/
def expectedTrace (eng : Nat → Nat) : List Nat → Nat → List Event
  | [], _ => []
  | n :: rest, k => .issue n :: .deliver (eng k) :: expectedTrace eng rest (k + 1)

/-! ## run_injector, the sys_enter hook, and hook lifecycle -/

/-- The hook-lifecycle-relevant state: the `INJECTORS` map (with abstract
futures as entries) and whether the pair of syscall hooks is installed. -/
structure SysState where
  injectors : List (ThreadId × List (Nat × AbsInj))
  hooks : Bool

/-- The `on_all_sys_enter` hook body (`syscall_injection.rs` lines 230-246),
restricted to its state effects: poll the current thread's injectors and, if
that reports everything processed, disable both hooks.  (The loop-again
re-entry at lines 236-242 only transfers control.) -/
def sysEnterHook (cur fuel : Nat) (t : ThreadId) (s : SysState) : SysState :=
  let r := pollThread stepAbs cur fuel s.injectors t
  { injectors := r.1, hooks := if r.2 then false else s.hooks }

/-- `run_injector` (`syscall_injection.rs` lines 161-256), restricted to its
state effects:

* `is_first := INJECTORS.is_empty()` — emptiness of the whole map, not of the
  current thread's queue (line 164);
* push the wrapped computation onto the current thread's queue under the
  current asid (lines 166-178);
* only if `is_first`: install both hooks (lines 182-246) and poll once,
  disabling them again if that first poll already reports everything
  processed (lines 250-254).

`t` is `ThreadId::current()` and `cur` is `current_asid()`. -/
def runInjector (cur fuel : Nat) (t : ThreadId) (inj : AbsInj) (s : SysState) : SysState :=
  let isFirst := s.injectors.isEmpty
  let m1 := pushQ s.injectors t (cur, inj)
  if isFirst then
    let r := pollThread stepAbs cur fuel m1 t
    { injectors := r.1, hooks := if r.2 then false else true }
  else
    { s with injectors := m1 }

/-! ## The register-backup/executing invariant (scheduler operations) -/

/-- The scheduler operations that touch the register-backup map or start or
finish a computation, taken from the two wrapper bodies:

* `startNormal` — the first poll of a `run_injector` wrapper reaches
  lines 170-171: back up the registers and `set_backed_up_regs`;
* `finishNormal` — the body of a `run_injector` wrapper returns and the
  wrapper runs lines 175-176: restore and `unset_backed_up_regs`;
* `startChild` — the first poll of a fork-child wrapper (line 206): no
  backup is taken;
* `finishChild` — the child body returns and the wrapper runs line 209:
  restore the parent's snapshot; nothing is removed from the backup map;
* `bodyEffect` — an injected syscall mutating guest registers. -/
inductive SchedOp
  | startNormal (t : ThreadId)
  | finishNormal (t : ThreadId) (S : List Nat)
  | startChild (t : ThreadId)
  | finishChild (t : ThreadId) (S : List Nat) (snap : Regs)
  | bodyEffect (f : Regs → Regs)

/-- The state the backup invariant speaks about: guest registers, the
`CURRENT_REGS_BACKUP` map, and which threads currently have a started,
unfinished computation — separated by wrapper shape. -/
structure TState where
  regs : Regs
  backup : BackupMap
  runningNormal : List ThreadId
  runningChild : List ThreadId

/-- Apply one scheduler operation.  Removal drops every occurrence of the
thread, matching removal of the (unique) map binding. -/
def applyOp : SchedOp → TState → TState
  | .startNormal t, s =>
      { s with
        backup := set_backed_up_regs t (backupRegs s.regs) s.backup,
        runningNormal := t :: s.runningNormal }
  | .finishNormal t S, s =>
      { s with
        regs := match s.backup t with
          | some snap => restoreRegs S snap s.regs
          | none => s.regs,
        backup := unset_backed_up_regs t s.backup,
        runningNormal := s.runningNormal.filter (fun u => u ≠ t) }
  | .startChild t, s =>
      { s with runningChild := t :: s.runningChild }
  | .finishChild t S snap, s =>
      { s with
        regs := restoreRegs S snap s.regs,
        runningChild := s.runningChild.filter (fun u => u ≠ t) }
  | .bodyEffect f, s =>
      { s with regs := f s.regs }

/-- Apply a sequence of scheduler operations, oldest first. -/
def applyTrace (ops : List SchedOp) (s : TState) : TState :=
  ops.foldl (fun acc op => applyOp op acc) s

/-- The invariant exactly as the claim states it: a backup exists for a
thread if and only if some computation (of either wrapper shape) is currently
executing for it. -/
def backupInv (s : TState) : Prop :=
  ∀ t : ThreadId, (s.backup t).isSome = true ↔
    (t ∈ s.runningNormal ∨ t ∈ s.runningChild)

/-- The refined invariant the code actually maintains: a backup exists for a
thread if and only if a normally-enqueued (non-fork-child) computation is
currently executing for it. -/
def backupInvNormal (s : TState) : Prop :=
  ∀ t : ThreadId, (s.backup t).isSome = true ↔ t ∈ s.runningNormal

/-! ## api/regs.rs -/

/-- The architecture configurations of `api/regs.rs` (cfg features; the
aarch64 and ppc tables are commented out in the source). -/
inductive Arch
  | i386
  | x86_64
  | arm
  | mips
deriving DecidableEq

/-- The register storage `get_reg`/`set_reg` dispatch over:
`(*cpu.env_ptr).regs` for the non-MIPS branch and
`(*cpu.env_ptr).active_tc.gpr` for the MIPS branch, indexed by the `Reg`
enum's discriminant. -/
structure CpuEnv where
  regs : Nat → Nat
  gpr : Nat → Nat

/-- `get_reg` (`api/regs.rs` lines 162-172): read `gpr[reg]` under
`cfg!(feature = "mips")`, `regs[reg]` otherwise. -/
def get_reg (arch : Arch) (cpu : CpuEnv) (reg : Nat) : Nat :=
  if arch = .mips then cpu.gpr reg else cpu.regs reg

/-- `set_reg` (`api/regs.rs` lines 175-183), translated exactly as written:
the MIPS branch (line 178) stores `reg` — the register index — rather than
`val`, while the other branch (line 180) stores `val`. -/
def set_reg (arch : Arch) (cpu : CpuEnv) (reg val : Nat) : CpuEnv :=
  if arch = .mips then
    { cpu with gpr := fun k => if k = reg then reg else cpu.gpr k }
  else
    { cpu with regs := fun k => if k = reg then val else cpu.regs k }

/-! ## Concrete fixtures for witnesses and counterexamples -/

/-- An injector whose every poll reports ready at once (a computation that
performs no syscall). -/
def injReady : AbsInj := { polls := 0, behavior := fun _ => .ready }

/-- An injector whose every poll parks on a syscall. -/
def injSys : AbsInj := { polls := 0, behavior := fun _ => .pendingSys }

/-- A concrete thread. -/
def tA : ThreadId := { pid := 1, tid := 1 }

/-- A second concrete thread. -/
def tB : ThreadId := { pid := 2, tid := 2 }

/-- All-zero registers. -/
def regs0 : Regs := fun _ => 0

/-- The identity computation body. -/
def compId : Comp := fun r => r

/-- A second computation body, to play the second fork child. -/
def compSucc : Comp := fun r => fun id => r id + 1

/-- Empty hook-lifecycle state: no injectors ever enqueued, hooks not
installed. -/
def sysState0 : SysState := { injectors := [], hooks := false }

/-- The hook-lifecycle state after one thread's queue was created and
drained: the binding persists with an empty queue, hooks are off. -/
def sysStateDrained : SysState := { injectors := [(tA, [])], hooks := false }

/-- A sys_return-hook state observing the fork-child sentinel (last injected
syscall 57, return register 0) with an empty `CHILD_INJECTOR` slot. -/
def sRetEmptySlot : SysRetState :=
  { lastSysNum := 57, retReg := 0, childSlot := none, injectors := [],
    curThread := tA, curAsid := 3, curInjectorAsid := 3, shouldLoop := false,
    pc := 100, regsPc := 104, deliveredRet := none }

/-- A sys_return-hook state observing the fork-child sentinel with a stored
child handoff. -/
def sRetWithChild : SysRetState :=
  { sRetEmptySlot with childSlot := some (regs0, compId) }

/-- Empty backup-invariant state. -/
def tState0 : TState :=
  { regs := regs0, backup := fun _ => none, runningNormal := [], runningChild := [] }

/-- A zeroed CPU environment. -/
def cpu0 : CpuEnv := { regs := fun _ => 0, gpr := fun _ => 0 }

/-- An empty backup map. -/
def bmap0 : BackupMap := fun _ => none

/-! ## Helper lemmas -/

theorem alookup_ainsert_self {κ α : Type} [DecidableEq κ]
    (m : List (κ × α)) (k : κ) (v : α) : alookup (ainsert m k v) k = some v := by
  induction m with
  | nil => simp [ainsert, alookup]
  | cons hd tl ih =>
      obtain ⟨k1, v1⟩ := hd
      by_cases h : k1 = k
      · simp [ainsert, alookup, h]
      · simp [ainsert, alookup, h, ih]

theorem alookup_pushQ_self {κ α : Type} [DecidableEq κ]
    (m : List (κ × List α)) (k : κ) (v : α) :
    alookup (pushQ m k v) k = some ((alookup m k).getD [] ++ [v]) := by
  induction m with
  | nil => simp [pushQ, alookup]
  | cons hd tl ih =>
      obtain ⟨k1, q1⟩ := hd
      by_cases h : k1 = k
      · simp [pushQ, alookup, h]
      · simp [pushQ, alookup, h, ih]

theorem alookup_pushQ_ne {κ α : Type} [DecidableEq κ]
    (m : List (κ × List α)) (k u : κ) (v : α) (h : u ≠ k) :
    alookup (pushQ m k v) u = alookup m u := by
  have hk : ¬ k = u := fun hc => h hc.symm
  induction m with
  | nil => simp [pushQ, alookup, hk]
  | cons hd tl ih =>
      obtain ⟨k1, q1⟩ := hd
      by_cases h1 : k1 = k
      · subst h1
        simp [pushQ, alookup, hk]
      · simp [pushQ, alookup, h1, ih]

/-! ## C3 — address-space isolation -/

/-- C3: a queued computation recorded under asid A is never advanced while
the live address space is a different asid: every entry actually polled by
the `poll_injectors` loop has the live asid, and when the queue head's asid
differs from the live asid the loop stops immediately, changes nothing, polls
nothing, and reports not finished. -/
theorem asid_isolation {ι : Type} (step : ι → ι × PollRes) (cur fuel : Nat)
    (q : List (Nat × ι)) :
    (∀ a ∈ (pollQueueAux step cur fuel q).2.2, a = cur) ∧
    (∀ a i rest, q = (a, i) :: rest → a ≠ cur →
      pollQueueAux step cur fuel q = ((a, i) :: rest, false, [])) := by
  constructor
  · induction fuel generalizing q with
    | zero => intro a ha; simp [pollQueueAux] at ha
    | succ n ih =>
        intro a ha
        cases q with
        | nil => simp [pollQueueAux] at ha
        | cons hd rest =>
            obtain ⟨b, i⟩ := hd
            by_cases hb : b = cur
            · rcases hstep : step i with ⟨i1, r⟩
              cases r with
              | ready =>
                  simp only [pollQueueAux, if_pos hb, hstep, List.mem_cons] at ha
                  rcases ha with ha | ha
                  · exact ha.trans hb
                  · exact ih rest a ha
              | pendingSys =>
                  simp only [pollQueueAux, if_pos hb, hstep, List.mem_singleton] at ha
                  exact ha.trans hb
              | pendingOther =>
                  simp only [pollQueueAux, if_pos hb, hstep, List.mem_cons] at ha
                  rcases ha with ha | ha
                  · exact ha.trans hb
                  · exact ih ((b, i1) :: rest) a ha
            · simp only [pollQueueAux, if_neg hb] at ha
              simp at ha
  · intro a i rest hq hne
    subst hq
    cases fuel with
    | zero => rfl
    | succ n => simp [pollQueueAux, hne]

/-- Witness for C3: a concrete queue whose head carries asid 7 while the live
asid is 5 is left untouched, unpolled, and reported not finished. -/
theorem asid_isolation_witness :
    pollQueueAux stepAbs 5 3 [(7, injSys)] = ([(7, injSys)], false, []) :=
  (asid_isolation stepAbs 5 3 [(7, injSys)]).2 7 injSys [] rfl (by decide)

/-! ## C6 — queue underrun -/

/-- C6 counterexample: the claim says polling a thread with no queue entry
immediately reports "finished"; but for a thread with no binding at all in
`INJECTORS` (here: the map is empty), `poll_injectors` takes the
`else return false` branch (lines 343-345) and reports NOT finished. -/
theorem queue_underrun_counterexample :
    (pollThread stepAbs 0 5 ([] : List (ThreadId × List (Nat × AbsInj))) tA).2 = false := rfl

/-- C6 as amended: polling a thread whose queue binding exists but is empty
reports finished, and the sys_enter hook then leaves the hooks uninstalled
(it only ever disables them); a thread with no binding at all reports not
finished (see the counterexample). -/
theorem queue_underrun_amended (cur fuel : Nat)
    (m : List (ThreadId × List (Nat × AbsInj))) (t : ThreadId) (b : Bool)
    (h : alookup m t = some []) :
    (pollThread stepAbs cur (fuel + 1) m t).2 = true ∧
    (sysEnterHook cur (fuel + 1) t { injectors := m, hooks := b }).hooks = false := by
  have h1 : pollThread stepAbs cur (fuel + 1) m t = (ainsert m t [], true) := by
    simp [pollThread, h, pollQueueAux]
  exact ⟨by rw [h1], by simp [sysEnterHook, h1]⟩

/-- Witness for C6 (amended): a thread whose queue was created and drained. -/
theorem queue_underrun_amended_witness :
    (pollThread stepAbs 0 4 [(tA, [])] tA).2 = true ∧
    (sysEnterHook 0 4 tA { injectors := [(tA, [])], hooks := true }).hooks = false :=
  queue_underrun_amended 0 3 [(tA, [])] tA true rfl

/-! ## C7 — fork handoff slot -/

/-- C7 counterexample: the claim says a second duplication request before the
first stored entry is consumed terminates the computation loudly; but `fork`
uses `Option::replace` (line 120), so with the slot already occupied by
`(regs0, compId)` a second `fork(compSucc)` returns normally, silently
dropping the first stored child. -/
theorem fork_slot_counterexample :
    forkOp (some regs0) (some (regs0, compId)) compSucc
      = Except.ok (some (regs0, compSucc), FORK) := rfl

/-- C7 as amended: the `ForkHandoff` slot holds at most one entry (it is an
`Option`); a second duplication request before consumption silently replaces
the stored entry and completes normally, issuing the duplication syscall; the
loud (panicking) failure of `fork` occurs only when it is invoked outside a
running injector, i.e. with no register backup present. -/
theorem fork_slot_amended (snap : Regs) (slot : Option (Regs × Comp)) (child : Comp) :
    forkOp (some snap) slot child = Except.ok (some (snap, child), FORK) ∧
    forkOp none slot child = Except.error ("Fork was run outside of an injector") :=
  ⟨rfl, rfl⟩

/-! ## C9 — empty-slot consumption panics; unreachable when the slot is full -/

/-- C9: when a post-syscall event satisfies the child-sentinel condition (last
injected syscall number 57, return register 0) while the `CHILD_INJECTOR`
slot is empty, `get_child_injector`'s `unwrap` panics; and whenever the slot
holds a stored entry the hook cannot panic. -/
theorem fork_unwrap_panic (s : SysRetState) :
    (s.lastSysNum = FORK → s.retReg = 0 → s.childSlot = none →
      sysReturnHook s = Except.error ("called Option::unwrap() on a None value")) ∧
    (∀ snap child, s.childSlot = some (snap, child) →
      exceptOk (sysReturnHook s) = true) := by
  constructor
  · intro h1 h2 h3
    simp [sysReturnHook, h1, h2, h3, FORK]
  · intro snap child h
    by_cases hf : (s.lastSysNum == FORK && s.retReg == 0) = true
    · simp [sysReturnHook, hf, h, exceptOk]
    · by_cases hc : (s.curInjectorAsid == s.curAsid) = true <;>
        simp [sysReturnHook, hf, hc, exceptOk]

/-- Witness for C9: the concrete sentinel-satisfying state with an empty slot
panics. -/
theorem fork_unwrap_panic_witness :
    sysReturnHook sRetEmptySlot
      = Except.error ("called Option::unwrap() on a None value") :=
  (fork_unwrap_panic sRetEmptySlot).1 rfl rfl rfl

/-! ## C10 — register read-after-write -/

/-- C10: the claim says `get_reg` after `set_reg` returns the written value on
every supported architecture configuration.  On the MIPS branch the source
(line 178) stores the register index instead of the value
(`gpr[reg] = reg;`), contradicting the function's own doc comment
("Set the value for a register") and the non-MIPS branch: writing 5 to
register 2 then reading register 2 yields 2, not 5.  On x86_64 the
round-trip does hold. -/
theorem get_set_reg_mips_bug :
    get_reg .mips (set_reg .mips cpu0 2 5) 2 = 2 ∧
    get_reg .mips (set_reg .mips cpu0 2 5) 2 ≠ 5 ∧
    get_reg .x86_64 (set_reg .x86_64 cpu0 2 5) 2 = 5 :=
  ⟨rfl, by decide, rfl⟩

/-! ## C2 — fork-child handoff consumption -/

/-- C2: when a post-syscall event observes the child outcome of the
duplication call (last injected syscall number 57, return register 0) and the
`CHILD_INJECTOR` slot holds a stored handoff, the hook consumes the slot
(leaving it empty) and appends exactly one entry — the stored child
computation wrapped as a fork-child wrapper — to the current thread's queue
under the current asid, leaving every other thread's queue untouched; and the
fork-child wrapper, when it runs, performs no register backup of its own
(the backup map passes through unchanged) and restores the parent's saved
snapshot after its body finishes. -/
theorem fork_child_enqueue (s : SysRetState) (snap : Regs) (child : Comp)
    (h1 : s.lastSysNum = FORK) (h2 : s.retReg = 0)
    (h3 : s.childSlot = some (snap, child)) :
    ∃ s1 : SysRetState, sysReturnHook s = Except.ok s1 ∧
      s1.childSlot = none ∧
      s1.injectors = pushQ s.injectors s.curThread (s.curAsid, .childWrap snap child) ∧
      alookup s1.injectors s.curThread
        = some ((alookup s.injectors s.curThread).getD []
            ++ [(s.curAsid, Wrapped.childWrap snap child)]) ∧
      (∀ u, u ≠ s.curThread → alookup s1.injectors u = alookup s.injectors u) ∧
      (∀ S r m, runEntry S s.curThread (.childWrap snap child) (r, m)
          = (restoreRegs S snap (child r), m)) := by
  have hhook : sysReturnHook s = Except.ok { s with
      childSlot := none,
      injectors := pushQ s.injectors s.curThread (s.curAsid, .childWrap snap child),
      shouldLoop := true,
      deliveredRet := some s.retReg,
      regsPc := s.pc } := by
    simp [sysReturnHook, h1, h2, h3, FORK]
  refine ⟨_, hhook, rfl, rfl, ?_, ?_, ?_⟩
  · exact alookup_pushQ_self s.injectors s.curThread _
  · intro u hu
    exact alookup_pushQ_ne s.injectors s.curThread u _ hu
  · intro S r m
    rfl

/-- Witness for C2: the concrete sentinel-satisfying state whose slot stores
the handoff pair of the all-zero snapshot and the identity child body. -/
theorem fork_child_enqueue_witness :
    ∃ s1 : SysRetState, sysReturnHook sRetWithChild = Except.ok s1 ∧
      s1.childSlot = none ∧
      s1.injectors = pushQ sRetWithChild.injectors sRetWithChild.curThread
        (sRetWithChild.curAsid, .childWrap regs0 compId) ∧
      alookup s1.injectors sRetWithChild.curThread
        = some ((alookup sRetWithChild.injectors sRetWithChild.curThread).getD []
            ++ [(sRetWithChild.curAsid, Wrapped.childWrap regs0 compId)]) ∧
      (∀ u, u ≠ sRetWithChild.curThread →
        alookup s1.injectors u = alookup sRetWithChild.injectors u) ∧
      (∀ S r m, runEntry S sRetWithChild.curThread (.childWrap regs0 compId) (r, m)
          = (restoreRegs S regs0 (compId r), m)) :=
  fork_child_enqueue sRetWithChild regs0 compId rfl rfl rfl

/-! ## C4 — register round-trip of the normal wrapper -/

/-- C4: the wrapper built by `run_injector` backs registers up, runs the
user-supplied body, restores, and clears the backup: for every register in
the backed-up set, the register state after completion and restore equals the
state captured at backup time (the state before the computation's first
syscall suspension, since only injected syscalls mutate guest registers), for
every body; and afterwards the thread's backup entry is cleared. -/
theorem register_roundtrip (S : List Nat) (t : ThreadId) (body : Comp) (r : Regs)
    (m : BackupMap) :
    (∀ id, id ∈ S → (runEntry S t (.normal body) (r, m)).1 id = r id) ∧
    get_backed_up_regs t (runEntry S t (.normal body) (r, m)).2 = none := by
  constructor
  · intro id h
    simp [runEntry, restoreRegs, backupRegs, h]
  · simp [runEntry, get_backed_up_regs, unset_backed_up_regs]

/-- Witness for C4: registers 0 and 16 are backed up; running a body that
increments every register still leaves register 0 restored to its original
value, and the backup entry cleared. -/
theorem register_roundtrip_witness :
    (runEntry [0, 16] tA (.normal compSucc) (regs0, bmap0)).1 0 = regs0 0 ∧
    get_backed_up_regs tA (runEntry [0, 16] tA (.normal compSucc) (regs0, bmap0)).2 = none :=
  ⟨(register_roundtrip [0, 16] tA compSucc regs0 bmap0).1 0 (by decide),
   (register_roundtrip [0, 16] tA compSucc regs0 bmap0).2⟩

/-! ## C5 — hook lifecycle -/

/-- C5 counterexample: the claim says hooks are installed when the first
entry is enqueued for a thread; but `run_injector` tests
`INJECTORS.is_empty()` — global emptiness — and map bindings persist after a
queue drains, so after thread `tA`'s computation has run and finished,
thread `tB`'s very first enqueue leaves `tB` with a non-empty queue while the
hooks stay uninstalled. -/
theorem hook_install_counterexample :
    ((alookup (runInjector 0 4 tB injSys (runInjector 0 4 tA injReady sysState0)).injectors
        tB).map List.isEmpty = some false) ∧
    (runInjector 0 4 tB injSys (runInjector 0 4 tA injReady sysState0)).hooks = false :=
  ⟨rfl, rfl⟩

/-- C5 as amended: hooks are installed by an enqueue only when the whole
`INJECTORS` map is empty beforehand (and are disabled again right away if the
initial poll already reports everything processed); an enqueue into a
non-empty map — including a thread's first — leaves the hook state unchanged;
and a pre-syscall event leaves hooks installed exactly when they were
installed and the poll of the current thread did not report finished (so
they are uninstalled by whichever poll first drains the current thread's
queue, regardless of other threads' pending work). -/
theorem hook_lifecycle_amended (cur fuel : Nat) (t : ThreadId) (inj : AbsInj)
    (s : SysState) :
    (s.injectors = [] →
      (runInjector cur fuel t inj s).hooks
        = !(pollThread stepAbs cur fuel
            (pushQ ([] : List (ThreadId × List (Nat × AbsInj))) t (cur, inj)) t).2) ∧
    (s.injectors ≠ [] → (runInjector cur fuel t inj s).hooks = s.hooks) ∧
    (sysEnterHook cur fuel t s).hooks
      = (s.hooks && !(pollThread stepAbs cur fuel s.injectors t).2) := by
  refine ⟨?_, ?_, ?_⟩
  · intro h
    cases hp : (pollThread stepAbs cur fuel
        (pushQ ([] : List (ThreadId × List (Nat × AbsInj))) t (cur, inj)) t).2 <;>
      simp [runInjector, h, hp]
  · intro h
    have he : s.injectors.isEmpty = false := by
      cases hi : s.injectors with
      | nil => exact absurd hi h
      | cons a l => rfl
    simp [runInjector, he]
  · cases hp : (pollThread stepAbs cur fuel s.injectors t).2 <;>
      simp [sysEnterHook, hp]

/-- Witness for C5 (amended): enqueueing for a fresh thread into a non-empty
map leaves the hook state unchanged. -/
theorem hook_lifecycle_amended_witness :
    (runInjector 0 4 tB injSys sysStateDrained).hooks = sysStateDrained.hooks :=
  (hook_lifecycle_amended 0 4 tB injSys sysStateDrained).2.1 (by simp [sysStateDrained])

/-! ## C8 — backup-exists-iff-executing invariant -/

/-- C8 counterexample: the invariant "a backup exists for a thread iff a
computation is currently executing for it" holds in the empty state but is
broken by the fork-child path: starting a fork-child wrapper (which takes no
backup, lines 205-211) leaves a computation executing for the child thread
with no backup entry for it. -/
theorem backup_invariant_counterexample :
    backupInv tState0 ∧ ¬ backupInv (applyOp (.startChild tA) tState0) := by
  constructor
  · intro t
    simp [tState0, backupInv]
  · intro h
    have := h tA
    simp [tState0, applyOp] at this

/-- C8 as amended: a register-snapshot backup exists for a `ThreadId` if and
only if a normally-enqueued (non-fork-child) computation is currently
executing for that context; every scheduler operation — including both
fork-child steps, which never touch the backup map — preserves this refined
invariant, and hence it holds after any operation sequence from a state
satisfying it. -/
theorem backup_invariant_amended :
    (∀ (op : SchedOp) (s : TState),
      backupInvNormal s → backupInvNormal (applyOp op s)) ∧
    (∀ (ops : List SchedOp) (s : TState),
      backupInvNormal s → backupInvNormal (applyTrace ops s)) := by
  have hstep : ∀ (op : SchedOp) (s : TState),
      backupInvNormal s → backupInvNormal (applyOp op s) := by
    intro op s h
    cases op with
    | startNormal t =>
        intro u
        by_cases hu : u = t
        · subst hu
          simp [applyOp, set_backed_up_regs]
        · simp [applyOp, set_backed_up_regs, hu, h u]
    | finishNormal t S =>
        intro u
        by_cases hu : u = t
        · subst hu
          simp [applyOp, unset_backed_up_regs, List.mem_filter]
        · simp [applyOp, unset_backed_up_regs, hu, h u, List.mem_filter]
    | startChild t =>
        intro u
        simpa [applyOp] using h u
    | finishChild t S snap =>
        intro u
        simpa [applyOp] using h u
    | bodyEffect f =>
        intro u
        simpa [applyOp] using h u
  refine ⟨hstep, ?_⟩
  intro ops
  induction ops with
  | nil => intro s h; simpa [applyTrace] using h
  | cons op rest ih =>
      intro s h
      have h1 := hstep op s h
      simpa [applyTrace] using ih (applyOp op s) h1

/-- Witness for C8 (amended): the refined invariant holds in the empty state
and survives the fork-child start that broke the unrefined one. -/
theorem backup_invariant_amended_witness :
    backupInvNormal (applyOp (.startChild tA) tState0) :=
  backup_invariant_amended.1 (.startChild tA) tState0
    (by intro t; simp [tState0, backupInvNormal])

/-! ## C1 — syscall sequencing -/

/-- A computation built from the suspension primitive only ever pends while
waiting for a syscall, never otherwise. -/
theorem stepComp_not_pendingOther (s : CompState) : (stepComp s).2 ≠ .pendingOther := by
  obtain ⟨rem, res, slot, aw, tr⟩ := s
  cases aw <;> cases slot <;> cases rem <;> simp [stepComp, issueNext]

/-- Bridge to `poll_injectors`: on a singleton queue whose asid matches the
live one, the poll loop polls the computation once; a ready computation is
popped and the loop reports finished. -/
theorem pollQueueAux_singleton_ready (cur fuel : Nat) (s s1 : CompState)
    (h : stepComp s = (s1, .ready)) :
    pollQueueAux stepComp cur (fuel + 2) [(cur, s)] = ([], true, [cur]) := by
  simp [pollQueueAux, h]

/-- Bridge to `poll_injectors`: on a singleton queue whose asid matches the
live one, a computation that parks on a syscall stays at the head and the
loop reports not finished. -/
theorem pollQueueAux_singleton_pendingSys (cur fuel : Nat) (s s1 : CompState)
    (h : stepComp s = (s1, .pendingSys)) :
    pollQueueAux stepComp cur (fuel + 1) [(cur, s)] = ([(cur, s1)], false, [cur]) := by
  simp [pollQueueAux, h]

/-- The engine-reported values for consecutive request indices, as a
`List.range` map. -/
theorem engVals_eq_map_range (eng : Nat → Nat) (c : Nat) :
    ∀ k, engVals eng c k = (List.range c).map (fun j => eng (k + j)) := by
  induction c with
  | zero => intro k; simp [engVals]
  | succ m ih =>
      intro k
      rw [List.range_succ_eq_map]
      simp only [engVals, List.map_cons, List.map_map]
      refine congrArg₂ _ (by rw [Nat.add_zero]) ?_
      rw [ih (k + 1)]
      refine List.map_congr_left ?_
      intro j _
      simp [Function.comp, Nat.add_assoc, Nat.add_comm 1 j]

/-- The cycle, started from a computation suspended at a syscall whose value
has just been delivered, runs every remaining request to completion: each
pending request is issued, its engine value delivered, and the computation
winds up finished with all results collected in order. -/
theorem cycle_filled (eng : Nat → Nat) (rest : List Nat) :
    ∀ (res : List Nat) (v : Nat) (tr : List Event),
    cycle eng (rest.length + 1)
        { remaining := rest, results := res, retSlot := some v, awaiting := true,
          trace := tr }
      = { remaining := [],
          results := (res ++ [v]) ++ engVals eng rest.length (res.length + 1),
          retSlot := none, awaiting := false,
          trace := tr ++ expectedTrace eng rest (res.length + 1) } := by
  induction rest with
  | nil =>
      intro res v tr
      simp [cycle, stepComp, issueNext, engVals, expectedTrace]
  | cons n rest2 ih =>
      intro res v tr
      have step1 : cycle eng (rest2.length + 1 + 1)
          { remaining := n :: rest2, results := res, retSlot := some v,
            awaiting := true, trace := tr }
          = cycle eng (rest2.length + 1)
              { remaining := rest2, results := res ++ [v],
                retSlot := some (eng (res.length + 1)), awaiting := true,
                trace := (tr ++ [Event.issue n]) ++ [Event.deliver (eng (res.length + 1))] } := by
        simp [cycle, stepComp, issueNext, deliverRet]
      rw [List.length_cons, step1, ih]
      simp [expectedTrace, engVals, List.append_assoc]

/-- C1: a computation performing the syscalls of `prog` (N of them), driven by
the hook cycle against an engine reporting value `eng k` for request `k`,
issues exactly the N syscall numbers of `prog` in invocation order, each
resumption yields exactly the engine-reported value for that specific request
(the final results list is `eng` over `0..N`), and the event history
interleaves strictly — request k is issued, then its value delivered, before
request k+1 is issued — after which the computation is finished. -/
theorem syscall_sequencing (prog : List Nat) (eng : Nat → Nat) :
    cycle eng (prog.length + 1) (initComp prog)
      = { remaining := [], results := (List.range prog.length).map eng,
          retSlot := none, awaiting := false, trace := expectedTrace eng prog 0 } := by
  cases prog with
  | nil => simp [cycle, initComp, stepComp, issueNext, expectedTrace]
  | cons n rest =>
      have step1 : cycle eng (rest.length + 1 + 1) (initComp (n :: rest))
          = cycle eng (rest.length + 1)
              { remaining := rest, results := [], retSlot := some (eng 0),
                awaiting := true,
                trace := [Event.issue n, Event.deliver (eng 0)] } := by
        simp [cycle, initComp, stepComp, issueNext, deliverRet]
      have hres : [eng 0] ++ engVals eng rest.length 1
          = List.map eng (List.range (rest.length + 1)) := by
        rw [List.range_succ_eq_map, engVals_eq_map_range]
        simp only [List.singleton_append, List.map_cons, List.map_map]
        congr 1
        refine List.map_congr_left ?_
        intro j _
        simp [Function.comp, Nat.add_comm 1 j]
      rw [List.length_cons, step1, cycle_filled]
      simp only [List.nil_append, List.length_nil, Nat.zero_add]
      rw [hres]
      simp [expectedTrace]

/-- The scenario of spec section 8: syscall 11 then syscall 22, engine
delivers 5 then 9; observed order is issue 11, deliver 5, issue 22,
deliver 9, computation finished. -/
theorem scenario_two_syscalls :
    cycle (fun k => if k = 0 then 5 else 9) 3 (initComp [11, 22])
      = { remaining := [], results := [5, 9], retSlot := none, awaiting := false,
          trace := [.issue 11, .deliver 5, .issue 22, .deliver 9] } := rfl

end PandaRs
